import Mathlib

/-
Verification of the Hybrid_complete self-checkout pipeline.

Shallow embedding conventions:
* Python floats (prices, confidences, IoU, tax) are modelled as ℚ; the
  verified properties are algebraic identities that do not depend on
  binary floating-point rounding.
* Python dicts are modelled as insertion-ordered association lists
  (`List (String × α)` with `lookupA`/`setA`), matching Python 3.7+
  dict semantics (update in place, new keys appended at the end).
* `datetime.now()` and `uuid4()` are nondeterministic inputs; they are
  modelled as explicit parameters (`clock : Nat`, `payment_id : String`).
* Stock is an integer (ℤ) so that non-negativity is a real statement;
  requested quantities are counts (Nat), as in the JSON payloads.
-/

set_option autoImplicit false

namespace Checkout

/-- Association-list lookup, mirroring Python `d.get(k)` / `k in d`. -/
def lookupA {α : Type} : List (String × α) → String → Option α
  | [], _ => none
  | e :: es, k => if e.1 = k then some e.2 else lookupA es k

/-- Association-list store, mirroring Python `d[k] = v`: replace in place
if the key exists, else append at the end. -/
def setA {α : Type} : List (String × α) → String → α → List (String × α)
  | [], k, v => [(k, v)]
  | e :: es, k, v => if e.1 = k then (k, v) :: es else e :: setA es k v

/-! ### String helpers

Python's `str.lower`, single-character `str.replace` and substring `in`
are modelled character-wise, which coincides with the source's uses
(all `replace` patterns in the resolver are single characters). -/

/-- Python `s.lower()` (ASCII catalog ids / labels). -/
def lowerStr (s : String) : String := String.mk (s.toList.map Char.toLower)

/-- Python `s.replace(a, b)` for one-character `a`, `b`. -/
def swapChar (a b : Char) (s : String) : String :=
  String.mk (s.toList.map fun c => if c = a then b else c)

/-- Python `s.replace(a, "")` for a one-character `a`. -/
def dropChar (a : Char) (s : String) : String :=
  String.mk (s.toList.filter fun c => c ≠ a)

/-- Python substring test `n in h` on character lists. -/
def isSubList (n : List Char) : List Char → Bool
  | [] => n.isEmpty
  | c :: cs => n.isPrefixOf (c :: cs) || isSubList n cs

/-- The apostrophe character, kept out of literals for hygiene. -/
def apos : Char := Char.ofNat 39

/-! ### Catalog data model (`services/json_db.py`, `main.py`) -/

structure Product where
  id : String
  name : String
  price : ℚ
  category : String
  stock : ℤ
  deriving DecidableEq, Repr

/-- `JsonDatabase.get_product`: first product whose `id` matches. -/
def getProduct : List Product → String → Option Product
  | [], _ => none
  | p :: ps, pid => if p.id = pid then some p else getProduct ps pid

/-- The dash/underscore and case variations tried by
`get_product_flexible` (main.py lines 189–195), in source order. -/
def idVariations (pid : String) : List String :=
  [ swapChar '_' '-' pid
  , swapChar '-' '_' pid
  , lowerStr pid
  , swapChar '_' '-' (lowerStr pid)
  , swapChar '-' '_' (lowerStr pid) ]

/-- Python `s.replace('-','').replace('_','').lower()` from the partial
match stage of `get_product_flexible`. -/
def canonStrip (s : String) : String :=
  lowerStr (dropChar '_' (dropChar '-' s))

/-- Partial-match stage of `get_product_flexible` (main.py lines 202–209):
first product whose id contains the query case-insensitively, or whose
dash/underscore-stripped id equals the stripped query. -/
def fuzzyFind : List Product → String → Option Product
  | [], _ => none
  | p :: ps, pid =>
    if isSubList (lowerStr pid).toList (lowerStr p.id).toList
        || canonStrip p.id = canonStrip pid
    then some p else fuzzyFind ps pid

/-- `get_product_flexible` (main.py lines 181–211): exact id match, then
the dash/underscore/case variations in order, then partial match. -/
def get_product_flexible (pid : String) (products : List Product) : Option Product :=
  match getProduct products pid with
  | some p => some p
  | none =>
    match (idVariations pid).findSome? (fun v => getProduct products v) with
    | some p => some p
    | none => fuzzyFind products pid

/-! ### Client-side label mapping (`detection/detection_client.py`) -/

structure ClientEntry where
  web_id : String
  price : ℚ
  deriving DecidableEq, Repr

/-- The detector label "Lay" + apostrophe + "s-Flat-Original-Flavor". -/
def laysFlatLabel : String := "Lay" ++ apos.toString ++ "s-Flat-Original-Flavor"

def laysNoriLabel : String := "Lay" ++ apos.toString ++ "s-Nori-Seaweed-Flavor"

def laysRidgedLabel : String := "Lay" ++ apos.toString ++ "s-Ridged-Original-Flavor"

/-- `MinimalDetectionClient.self.products`: the index keyed by the raw
detector label (detection_client.py lines 32–50). -/
def clientProducts : List (String × ClientEntry) :=
  [ (laysFlatLabel, ⟨"lays-flat-original", 20⟩)
  , (laysNoriLabel, ⟨"lays-nori-seaweed", 25⟩)
  , (laysRidgedLabel, ⟨"lays-ridged-original", 22⟩)
  , ("Snackjack-Original-Flavor", ⟨"snackjack-original", 18⟩)
  , ("Tasto-Japanese-Seaweed-Flavor", ⟨"tasto-japanese-seaweed", 24⟩)
  , ("Tasto-Original-Flavor", ⟨"tasto-original", 22⟩)
  , ("Enter", ⟨"enter", 18⟩)
  , ("Atreus", ⟨"atreus", 22⟩)
  , ("CocaCola-Bottle", ⟨"coca-cola-bottle", 18⟩)
  , ("CocaCola-Can", ⟨"coca-cola-can", 14⟩)
  , ("Crystal-Water", ⟨"crystal-water", 7⟩)
  , ("Fanta-FruitPunch-Flavor", ⟨"fanta-fruit-punch", 14⟩)
  , ("Pepsi", ⟨"pepsi", 14⟩)
  , ("Sprite", ⟨"sprite", 14⟩) ]

/-- Normalisation used by `send_to_cart` for labels missing from the
mapping table: lowercase, spaces to dashes, apostrophes stripped
(detection_client.py line 229). -/
def autoFormatLabel (label : String) : String :=
  dropChar apos (swapChar ' ' '-' (lowerStr label))

/-- Product id the client sends for a detector label
(`send_to_cart`, detection_client.py lines 222–230): exact lookup in the
label-keyed table, else the normalised fallback. Total on all strings. -/
def clientProductId (label : String) : String :=
  match lookupA clientProducts label with
  | some info => info.web_id
  | none => autoFormatLabel label

/-- End-to-end label resolution: the client picks a product id, the
server resolves it flexibly against the catalog. -/
def resolveLabel (label : String) (products : List Product) : Option Product :=
  get_product_flexible (clientProductId label) products

/-! ### Cart manager (`CartManager` in main.py) -/

/-- One scan-to-cart event (`CartManager.add_item`, main.py lines 78–86).
The uuid is modelled by a fresh counter value, the timestamp by the
explicit clock. -/
structure CartLine where
  line_id : Nat
  product_id : String
  product_name : String
  price : ℚ
  category : String
  added_at : Nat
  deriving DecidableEq, Repr

structure Cart where
  items : List CartLine
  last_updated : Option Nat
  created_at : Nat
  deriving DecidableEq, Repr

structure CartMgr where
  carts : List (String × Cart)
  nextLineId : Nat
  deriving DecidableEq, Repr

/-- Falsy session ids (None or the empty string) fall back to the
implicit `"default"` session (`CartManager.get_cart`). -/
def resolveSid (sid : Option String) : String :=
  match sid with
  | none => "default"
  | some s => if s = "" then "default" else s

/-- `CartManager.get_cart` (main.py lines 61–72): lazily creates an
empty cart for unseen sessions. -/
def getCart (mgr : CartMgr) (sid : Option String) (clock : Nat) : Cart × CartMgr :=
  let k := resolveSid sid
  match lookupA mgr.carts k with
  | some c => (c, mgr)
  | none =>
    let c : Cart := ⟨[], none, clock⟩
    (c, { mgr with carts := setA mgr.carts k c })

/-- `CartManager.add_item` (main.py lines 74–91): append one line and
bump `last_updated`. -/
def addItem (mgr : CartMgr) (product : Product) (sid : Option String) (clock : Nat) :
    CartLine × CartMgr :=
  let cm := getCart mgr sid clock
  let line : CartLine :=
    ⟨cm.2.nextLineId, product.id, product.name, product.price, product.category, clock⟩
  let cart' : Cart := { cm.1 with items := cm.1.items ++ [line], last_updated := some clock }
  (line, { cm.2 with
            carts := setA cm.2.carts (resolveSid sid) cart'
            nextLineId := cm.2.nextLineId + 1 })

/-- `CartManager.clear_cart` (main.py lines 104–107). -/
def clearCart (mgr : CartMgr) (sid : Option String) (clock : Nat) : CartMgr :=
  let cm := getCart mgr sid clock
  let cart' : Cart := { cm.1 with items := [], last_updated := some clock }
  { cm.2 with carts := setA cm.2.carts (resolveSid sid) cart' }

/-- One aggregated row of the cart summary. -/
structure SummaryItem where
  product_id : String
  product_name : String
  price : ℚ
  quantity : Nat
  deriving DecidableEq, Repr

/-- One step of the grouping dict in `CartManager.get_summary`
(main.py lines 112–124): bump the entry for the line's product id if
present, else append a fresh entry with quantity 1. -/
def summaryAdd : List SummaryItem → CartLine → List SummaryItem
  | [], l => [⟨l.product_id, l.product_name, l.price, 1⟩]
  | e :: es, l =>
    if e.product_id = l.product_id then
      { e with quantity := e.quantity + 1 } :: es
    else
      e :: summaryAdd es l

/-- The grouped rows of `get_summary`, in first-occurrence order. -/
def summaryItems (lines : List CartLine) : List SummaryItem :=
  lines.foldl summaryAdd []

/-- The quantity recorded for a product id in a list of summary rows
(0 when absent); a specification helper for reasoning about grouping. -/
def qtyOf : List SummaryItem → String → Nat
  | [], _ => 0
  | e :: es, pid => if e.product_id = pid then e.quantity else qtyOf es pid

structure Summary where
  items : List SummaryItem
  total_items : Nat
  unique_items : Nat
  last_updated : Option Nat
  created_at : Nat
  deriving DecidableEq, Repr

/-- `CartManager.get_summary` (main.py lines 109–132); like the source
it goes through `get_cart`, so it can lazily create the session. -/
def getSummary (mgr : CartMgr) (sid : Option String) (clock : Nat) : Summary × CartMgr :=
  let cm := getCart mgr sid clock
  (⟨summaryItems cm.1.items, cm.1.items.length, (summaryItems cm.1.items).length,
    cm.1.last_updated, cm.1.created_at⟩, cm.2)

/-! ### Persisted store (`services/json_db.py`) -/

inductive PayStatus where
  | pending
  | completed
  deriving DecidableEq, Repr

structure PayItem where
  product_id : String
  product_name : String
  quantity : Nat
  price : ℚ
  total : ℚ
  deriving DecidableEq, Repr

/-- A pending payment as built by `checkout_cart` (main.py lines
407–426); the QR payload is a pure function of `total` and
`payment_id` and is not modelled separately. -/
structure Payment where
  payment_id : String
  timestamp : Nat
  items : List PayItem
  subtotal : ℚ
  tax : ℚ
  total : ℚ
  status : PayStatus
  session_id : String
  deriving DecidableEq, Repr

/-- A sale record (`JsonDatabase.process_pending_payment`); the
`SALE-<timestamp>` id string is modelled by the clock value. -/
structure Sale where
  sale_id : Nat
  payment_id : String
  timestamp : Nat
  items : List PayItem
  subtotal : ℚ
  tax : ℚ
  total : ℚ
  deriving DecidableEq, Repr

/-- The persisted store: products, sales, pending payments and the
settings entry read by checkout (`settings.get` with default 0.07). -/
structure Db where
  products : List Product
  sales : List Sale
  pending_payments : List (String × Payment)
  taxRate : Option ℚ
  deriving DecidableEq, Repr

inductive StockOp where
  | add
  | subtract
  deriving DecidableEq, Repr

/-- Walk of the product list in `JsonDatabase.update_stock` (json_db.py
lines 46–64): on the first id match apply the operation; `none` when no
product matches or a subtract would drive stock negative (in both cases
the store is left untouched and the call reports failure). -/
def updateStockList : List Product → String → Nat → StockOp → Option (List Product)
  | [], _, _, _ => none
  | p :: ps, pid, q, op =>
    if p.id = pid then
      match op with
      | .add => some ({ p with stock := p.stock + q } :: ps)
      | .subtract =>
        if (q : ℤ) ≤ p.stock then some ({ p with stock := p.stock - q } :: ps)
        else none
    else (updateStockList ps pid q op).map (p :: ·)

/-- `JsonDatabase.update_stock`: returns the success flag and the
(possibly unchanged) store. -/
def update_stock (db : Db) (pid : String) (q : Nat) (op : StockOp) : Bool × Db :=
  match updateStockList db.products pid q op with
  | some ps => (true, { db with products := ps })
  | none => (false, db)

def addPendingPayment (db : Db) (pid : String) (pay : Payment) : Db :=
  { db with pending_payments := setA db.pending_payments pid pay }

def getPendingPayment (db : Db) (pid : String) : Option Payment :=
  lookupA db.pending_payments pid

/-- The per-line stock decrement inside `process_pending_payment`
(json_db.py lines 96–102): only the first product with a matching id is
touched, and only when its stock covers the quantity; otherwise the
decrement is silently skipped. -/
def decrementFirst : List Product → String → Nat → List Product
  | [], _, _ => []
  | p :: ps, pid, q =>
    if p.id = pid then
      (if (q : ℤ) ≤ p.stock then { p with stock := p.stock - q } else p) :: ps
    else p :: decrementFirst ps pid q

/-- `JsonDatabase.process_pending_payment` (json_db.py lines 78–113):
build the sale, best-effort decrement each line, mark the payment
completed, append the sale. `none` when the payment is missing or not
pending (store untouched). -/
def process_pending_payment (db : Db) (pid : String) (clock : Nat) : Option Sale × Db :=
  match getPendingPayment db pid with
  | none => (none, db)
  | some pp =>
    if pp.status ≠ PayStatus.pending then (none, db)
    else
      let sale : Sale := ⟨clock, pid, clock, pp.items, pp.subtotal, pp.tax, pp.total⟩
      let products' :=
        pp.items.foldl (fun ps it => decrementFirst ps it.product_id it.quantity) db.products
      (some sale,
        { db with
          products := products'
          pending_payments := setA db.pending_payments pid { pp with status := .completed }
          sales := db.sales ++ [sale] })

/-! ### HTTP endpoint layer (`main.py`) -/

/-- Whole-system state: the in-process cart manager plus the store. -/
structure SysState where
  mgr : CartMgr
  db : Db
  deriving DecidableEq, Repr

/-- Outcome of `POST /api/add-to-cart` (main.py lines 213–272):
404 not-found, 400 insufficient stock (carrying available vs requested,
as the JSON body does), or success with the appended lines and the
refreshed summary. -/
inductive AddResult where
  | notFound (pid : String)
  | insufficientStock (available : ℤ) (requested : Nat)
  | ok (added : List CartLine) (cart_summary : Summary)
  deriving DecidableEq, Repr

/-- The `for _ in range(quantity)` loop of `add_to_cart` /
`add_batch_to_cart`: n successive `add_item` calls, collecting the
lines in order. -/
def addItems (p : Product) (sid : Option String) (clock : Nat) :
    CartMgr → Nat → List CartLine × CartMgr
  | mgr, 0 => ([], mgr)
  | mgr, n + 1 =>
    let r1 := addItem mgr p sid clock
    let r2 := addItems p sid clock r1.2 n
    (r1.1 :: r2.1, r2.2)

/-- `POST /api/add-to-cart` (main.py lines 213–272). -/
def add_to_cart (st : SysState) (pid : String) (qty : Nat) (sid : Option String)
    (clock : Nat) : AddResult × SysState :=
  match get_product_flexible pid st.db.products with
  | none => (.notFound pid, st)
  | some p =>
    if p.stock < (qty : ℤ) then (.insufficientStock p.stock qty, st)
    else
      let r := addItems p sid clock st.mgr qty
      let sm := getSummary r.2 sid clock
      (.ok r.1 sm.1, { st with mgr := sm.2 })

/-- Response shape of `POST /api/add-batch-to-cart`
(main.py lines 311–316). -/
structure BatchResp where
  success : Bool
  items_added : Nat
  errors : List String
  cart_summary : Summary
  deriving DecidableEq, Repr

/-- One iteration of the batch loop (main.py lines 284–299): resolve,
check stock, then add `quantity` lines; failures contribute one error
string and leave the accumulator's cart untouched. -/
def batchStep (db : Db) (sid : Option String) (clock : Nat)
    (acc : List CartLine × List String × CartMgr) (it : String × Nat) :
    List CartLine × List String × CartMgr :=
  match get_product_flexible it.1 db.products with
  | none => (acc.1, acc.2.1 ++ ["Product " ++ it.1 ++ " not found"], acc.2.2)
  | some p =>
    if p.stock < (it.2 : ℤ) then
      (acc.1, acc.2.1 ++ ["Insufficient stock for " ++ p.name], acc.2.2)
    else
      let r := addItems p sid clock acc.2.2 it.2
      (acc.1 ++ r.1, acc.2.1, r.2)

/-- `POST /api/add-batch-to-cart` (main.py lines 274–320); note the
store is only read during the loop, never written. -/
def add_batch (st : SysState) (items : List (String × Nat)) (sid : Option String)
    (clock : Nat) : BatchResp × SysState :=
  let acc := items.foldl (batchStep st.db sid clock) ([], [], st.mgr)
  let sm := getSummary acc.2.2 sid clock
  (⟨decide (0 < acc.1.length), acc.1.length, acc.2.1, sm.1⟩, { st with mgr := sm.2 })

/-- Whether one batch item passes the per-item checks of the batch
loop against a fixed store: product resolvable and stock sufficient. -/
def itemOk (db : Db) (it : String × Nat) : Bool :=
  match get_product_flexible it.1 db.products with
  | none => false
  | some p => !decide (p.stock < (it.2 : ℤ))

inductive CheckoutResult where
  | emptyCart
  | payment (p : Payment)
  deriving DecidableEq, Repr

/-- `POST /api/checkout-cart` (main.py lines 366–441): snapshot the
summary, compute subtotal/tax/total, store the pending payment, clear
the live cart. The generated uuid is the explicit `payment_id`. -/
def checkout_cart (st : SysState) (sid : Option String) (payment_id : String)
    (clock : Nat) : CheckoutResult × SysState :=
  let sm := getSummary st.mgr sid clock
  if sm.1.total_items = 0 then (.emptyCart, { st with mgr := sm.2 })
  else
    let subtotal := (sm.1.items.map (fun it => it.price * (it.quantity : ℚ))).sum
    let rate := st.db.taxRate.getD (7 / 100)
    let tax := subtotal * rate
    let total := subtotal + tax
    let pay : Payment :=
      ⟨payment_id, clock,
        sm.1.items.map (fun it =>
          ⟨it.product_id, it.product_name, it.quantity, it.price,
            it.price * (it.quantity : ℚ)⟩),
        subtotal, tax, total, .pending, resolveSid sid⟩
    (.payment pay, ⟨clearCart sm.2 sid clock, addPendingPayment st.db payment_id pay⟩)

/-- The pending payment `checkout_cart` snapshots from the current
summary (same expression as in `checkout_cart`, named so that theorems
can speak about it). -/
def checkoutPayment (st : SysState) (sid : Option String) (payment_id : String)
    (clock : Nat) : Payment :=
  let sm := getSummary st.mgr sid clock
  let subtotal := (sm.1.items.map (fun it => it.price * (it.quantity : ℚ))).sum
  let rate := st.db.taxRate.getD (7 / 100)
  ⟨payment_id, clock,
    sm.1.items.map (fun it =>
      ⟨it.product_id, it.product_name, it.quantity, it.price,
        it.price * (it.quantity : ℚ)⟩),
    subtotal, subtotal * rate, subtotal + subtotal * rate, .pending, resolveSid sid⟩

/-- Outcome of `POST /api/confirm-payment/{payment_id}` (main.py lines
459–476): 404 "Payment not found", 400 "Payment already processed",
400 "Failed to process payment", or the sale. -/
inductive ConfirmResult where
  | notFound
  | alreadyProcessed
  | failed
  | sale (s : Sale)
  deriving DecidableEq, Repr

/-- `POST /api/confirm-payment/{payment_id}` (main.py lines 459–476). -/
def confirm_payment (st : SysState) (pid : String) (clock : Nat) :
    ConfirmResult × SysState :=
  match getPendingPayment st.db pid with
  | none => (.notFound, st)
  | some pp =>
    if pp.status ≠ PayStatus.pending then (.alreadyProcessed, st)
    else
      let r := process_pending_payment st.db pid clock
      match r.1 with
      | some s => (.sale s, { st with db := r.2 })
      | none => (.failed, { st with db := r.2 })

/-- `POST /api/restock/{product_id}` (main.py lines 451–457). -/
def restock (st : SysState) (pid : String) (q : Nat) : Bool × SysState :=
  let r := update_stock st.db pid q .add
  (r.1, { st with db := r.2 })

/-- The stock-touching operations quantified over in the invariant
claims: single add-to-cart, restock, payment confirmation. -/
inductive Op where
  | addCart (pid : String) (qty : Nat) (sid : Option String) (clock : Nat)
  | restockOp (pid : String) (qty : Nat)
  | confirmOp (pid : String) (clock : Nat)
  deriving DecidableEq, Repr

def applyOp (st : SysState) : Op → SysState
  | .addCart pid qty sid clock => (add_to_cart st pid qty sid clock).2
  | .restockOp pid qty => (restock st pid qty).2
  | .confirmOp pid clock => (confirm_payment st pid clock).2

/-- The catalog invariant from the spec: no product's stock is negative. -/
def StocksNonneg (db : Db) : Prop := ∀ p ∈ db.products, 0 ≤ p.stock

instance (db : Db) : Decidable (StocksNonneg db) :=
  List.decidableBAll _ db.products

/-- Observable cart contents of a session (empty for unseen sessions). -/
def cartLinesOf (mgr : CartMgr) (sid : Option String) : List CartLine :=
  ((lookupA mgr.carts (resolveSid sid)).map Cart.items).getD []

/-! ### Detection overlap suppression (`detection/yolo_detector.py`) -/

structure Box where
  x1 : ℤ
  y1 : ℤ
  x2 : ℤ
  y2 : ℤ
  deriving DecidableEq, Repr

structure Detection where
  class_name : String
  confidence : ℚ
  bbox : Box
  category : String
  deriving DecidableEq, Repr

def boxArea (b : Box) : ℤ := (b.x2 - b.x1) * (b.y2 - b.y1)

/-- `YOLODetector._calculate_iou` (yolo_detector.py lines 173–203). -/
def calcIou (b1 b2 : Box) : ℚ :=
  let x1i := max b1.x1 b2.x1
  let y1i := max b1.y1 b2.y1
  let x2i := min b1.x2 b2.x2
  let y2i := min b1.y2 b2.y2
  if x2i < x1i ∨ y2i < y1i then 0
  else
    let inter := (x2i - x1i) * (y2i - y1i)
    let union := boxArea b1 + boxArea b2 - inter
    if 0 < union then (inter : ℚ) / (union : ℚ) else 0

/-- Stable descending insertion by confidence, matching Python's stable
`sorted(..., key=confidence, reverse=True)`. -/
def insertDesc (d : Detection) : List Detection → List Detection
  | [] => [d]
  | e :: es => if e.confidence ≤ d.confidence then d :: e :: es else e :: insertDesc d es

def sortDesc : List Detection → List Detection
  | [] => []
  | d :: ds => insertDesc d (sortDesc ds)

/-- The duplicate test of the greedy loop (yolo_detector.py lines
159–166): some already-accepted detection overlaps above the threshold
and carries the same class name. -/
def isDup (t : ℚ) (d : Detection) (sel : List Detection) : Bool :=
  sel.any fun s =>
    decide (t < calcIou d.bbox s.bbox) && decide (d.class_name = s.class_name)

/-- `YOLODetector._filter_overlapping_detections` (yolo_detector.py
lines 140–171): sort by confidence descending, then greedily accept. -/
def filterOverlapping (t : ℚ) (dets : List Detection) : List Detection :=
  (sortDesc dets).foldl (fun filtered d => if isDup t d filtered then filtered else filtered ++ [d]) []

/-! ### Detection debouncer (`DetectionDebouncer`, yolo_detector.py) -/

structure Debouncer where
  debounce_time : ℚ
  last_detections : List (String × ℚ)
  deriving DecidableEq, Repr

/-- `DetectionDebouncer.is_new_detection` (yolo_detector.py lines
275–294), with `time.time()` as the explicit `now`: a call within the
window returns false and leaves the stored timestamp untouched; any
other call stores `now` and returns true. -/
def isNewDetection (d : Debouncer) (label : String) (now : ℚ) : Bool × Debouncer :=
  match lookupA d.last_detections label with
  | some t0 =>
    if now - t0 < d.debounce_time then (false, d)
    else (true, { d with last_detections := setA d.last_detections label now })
  | none => (true, { d with last_detections := setA d.last_detections label now })

/-! ### Concrete fixtures (used to instantiate the theorems) -/

def laysProd : Product := ⟨"lays-flat-original", "Lays Flat Original", 20, "chips", 5⟩

def colaP : Product := ⟨"cola-can", "Cola", 14, "drinks", 5⟩

def colaLine1 : CartLine := ⟨0, "cola-can", "Cola", 14, "drinks", 0⟩

def colaLine2 : CartLine := ⟨1, "cola-can", "Cola", 14, "drinks", 0⟩

def sampleMgr : CartMgr := ⟨[("default", ⟨[colaLine1, colaLine2], some 0, 0⟩)], 2⟩

def sampleDb : Db := ⟨[colaP], [], [], none⟩

def sampleSt : SysState := ⟨sampleMgr, sampleDb⟩

def wPayItems : List PayItem := [⟨"cola-can", "Cola", 2, 14, 28⟩]

def wPay : Payment := ⟨"pay1", 0, wPayItems, 28, 2, 30, .pending, "default"⟩

def wSt : SysState := ⟨⟨[], 0⟩, ⟨[colaP], [], [("pay1", wPay)], none⟩⟩

def wSale : Sale := ⟨1, "pay1", 1, wPayItems, 28, 2, 30⟩

def wSt1 : SysState := (confirm_payment wSt "pay1" 1).2

def prodA : Product := ⟨"prod-a", "Alpha", 10, "chips", 5⟩

def prodB : Product := ⟨"prod-b", "Bravo", 10, "chips", 0⟩

def prodC : Product := ⟨"prod-c", "Charlie", 10, "chips", 5⟩

def batchSt : SysState := ⟨⟨[], 0⟩, ⟨[prodA, prodB, prodC], [], [], none⟩⟩

def detHi : Detection := ⟨"pepsi", 9 / 10, ⟨0, 0, 10, 10⟩, "drinks"⟩

def detLo : Detection := ⟨"pepsi", 8 / 10, ⟨1, 1, 11, 11⟩, "drinks"⟩

def detLoY : Detection := ⟨"sprite", 8 / 10, ⟨1, 1, 11, 11⟩, "drinks"⟩

def debSample : Debouncer := ⟨1, []⟩

/-! ## Basic lemmas about the association-list store -/

theorem lookupA_setA_self {α : Type} (l : List (String × α)) (k : String) (v : α) :
    lookupA (setA l k v) k = some v := by
  induction l with
  | nil => simp [setA, lookupA]
  | cons e es ih =>
    by_cases h : e.1 = k
    · simp [setA, h, lookupA]
    · simp [setA, h, lookupA, ih]

/-! ## Claim theorems -/

/-- C7: the debouncer accepts a label's first sighting and rejects an
immediately following one; a suppressed call returns false without
touching the stored timestamp, so the cooldown window keeps being
measured from the last accepted detection. -/
theorem debounce_cooldown
    (d d' : Debouncer) (label : String) (t1 t2 t0 now : ℚ)
    (hfresh : lookupA d.last_detections label = none)
    (hwin : t2 - t1 < d.debounce_time)
    (hseen : lookupA d'.last_detections label = some t0)
    (hsup : now - t0 < d'.debounce_time) :
    (isNewDetection d label t1).1 = true ∧
    isNewDetection (isNewDetection d label t1).2 label t2 =
      (false, (isNewDetection d label t1).2) ∧
    isNewDetection d' label now = (false, d') := by
  refine ⟨?_, ?_, ?_⟩
  · simp [isNewDetection, hfresh]
  · simp [isNewDetection, hfresh, lookupA_setA_self, hwin]
  · simp [isNewDetection, hseen, hsup]

theorem debounce_window_fixture : (0 : ℚ) - 0 < debSample.debounce_time := by
  norm_num [debSample]

theorem debounce_window_fixture2 :
    (0 : ℚ) - 0 < (isNewDetection debSample "pepsi" 0).2.debounce_time := by
  norm_num [isNewDetection, debSample, lookupA]

theorem debounce_cooldown_witness :
    (isNewDetection debSample "pepsi" 0).1 = true ∧
    isNewDetection (isNewDetection debSample "pepsi" 0).2 "pepsi" 0 =
      (false, (isNewDetection debSample "pepsi" 0).2) ∧
    isNewDetection (isNewDetection debSample "pepsi" 0).2 "pepsi" 0 =
      (false, (isNewDetection debSample "pepsi" 0).2) :=
  debounce_cooldown debSample ((isNewDetection debSample "pepsi" 0).2) "pepsi" 0 0 0 0
    (by decide) debounce_window_fixture (by decide) debounce_window_fixture2

/-- C10: reading the cart of a session the manager has never seen
(the implicit default session included) cannot fail: the session is
created lazily and the summary is empty. -/
theorem read_unknown_session_empty
    (mgr : CartMgr) (sid : Option String) (clock : Nat)
    (h : lookupA mgr.carts (resolveSid sid) = none) :
    (getSummary mgr sid clock).1.items = [] ∧
    (getSummary mgr sid clock).1.total_items = 0 ∧
    (getSummary mgr sid clock).1.unique_items = 0 := by
  simp [getSummary, getCart, h, summaryItems]

theorem read_unknown_session_empty_witness :
    (getSummary (⟨[], 0⟩ : CartMgr) none 0).1.items = [] ∧
    (getSummary (⟨[], 0⟩ : CartMgr) none 0).1.total_items = 0 ∧
    (getSummary (⟨[], 0⟩ : CartMgr) none 0).1.unique_items = 0 :=
  read_unknown_session_empty ⟨[], 0⟩ none 0 (by decide)

/-- C2: once a confirmation has produced a sale, confirming the same
payment id again is rejected with the distinct "already processed"
signal and leaves the whole state untouched: no second stock decrement,
no second sale. -/
theorem confirm_twice_rejected
    (st : SysState) (pid : String) (c1 c2 : Nat) (s : Sale) (st1 : SysState)
    (h : confirm_payment st pid c1 = (ConfirmResult.sale s, st1)) :
    confirm_payment st1 pid c2 = (ConfirmResult.alreadyProcessed, st1) ∧
    ConfirmResult.alreadyProcessed ≠ ConfirmResult.notFound := by
  refine ⟨?_, by decide⟩
  cases hpp : getPendingPayment st.db pid with
  | none => simp [confirm_payment, hpp] at h
  | some pp =>
    by_cases hs : pp.status = PayStatus.pending
    · simp [confirm_payment, hpp, hs, process_pending_payment] at h
      obtain ⟨-, h2⟩ := h
      subst h2
      simp [confirm_payment, getPendingPayment, lookupA_setA_self, hs]
    · simp [confirm_payment, hpp, hs] at h

theorem confirm_twice_rejected_witness :
    confirm_payment wSt1 "pay1" 2 = (ConfirmResult.alreadyProcessed, wSt1) ∧
    ConfirmResult.alreadyProcessed ≠ ConfirmResult.notFound :=
  confirm_twice_rejected wSt "pay1" 1 2 wSale wSt1 (by decide)

/-- C8: catalog resolution is a total cascade — exact id lookup first,
then the dash/underscore/lowercase variations in order, then partial
match; labels absent from the client table get the deterministic
normalised id; the label "Lay" + apostrophe + "s-Flat-Original-Flavor"
resolves to the product stored under id "lays-flat-original". -/
theorem catalog_resolution
    (products : List Product) (q : String) (p : Product) :
    (getProduct products q = some p → get_product_flexible q products = some p) ∧
    (getProduct products q = none →
      (idVariations q).findSome? (fun v => getProduct products v) = some p →
      get_product_flexible q products = some p) ∧
    (getProduct products q = none →
      (∀ v ∈ idVariations q, getProduct products v = none) →
      get_product_flexible q products = fuzzyFind products q) ∧
    (∀ lbl : String, lookupA clientProducts lbl = none →
      clientProductId lbl = autoFormatLabel lbl) ∧
    (getProduct products "lays-flat-original" = some p →
      resolveLabel laysFlatLabel products = some p) := by
  refine ⟨?_, ?_, ?_, ?_, ?_⟩
  · intro h
    simp [get_product_flexible, h]
  · intro h1 h2
    simp [get_product_flexible, h1, h2]
  · intro h1 h2
    have l1 := h2 (swapChar '_' '-' q) (by simp [idVariations])
    have l2 := h2 (swapChar '-' '_' q) (by simp [idVariations])
    have l3 := h2 (lowerStr q) (by simp [idVariations])
    have l4 := h2 (swapChar '_' '-' (lowerStr q)) (by simp [idVariations])
    have l5 := h2 (swapChar '-' '_' (lowerStr q)) (by simp [idVariations])
    simp [get_product_flexible, h1, idVariations, List.findSome?_cons, l1, l2, l3, l4, l5]
  · intro lbl h
    simp [clientProductId, h]
  · intro h
    have hid : clientProductId laysFlatLabel = "lays-flat-original" := by decide
    simp [resolveLabel, hid, get_product_flexible, h]

theorem catalog_resolution_witness :
    getProduct [laysProd] "lays-flat-original" = some laysProd ∧
    resolveLabel laysFlatLabel [laysProd] = some laysProd :=
  ⟨by decide,
    (catalog_resolution [laysProd] "lays-flat-original" laysProd).2.2.2.2 (by decide)⟩

theorem calcIou_comm (b1 b2 : Box) : calcIou b1 b2 = calcIou b2 b1 := by
  simp only [calcIou, max_comm b2.x1 b1.x1, max_comm b2.y1 b1.y1, min_comm b2.x2 b1.x2,
    min_comm b2.y2 b1.y2, add_comm (boxArea b2) (boxArea b1)]

/-- C6: on a frame holding two detections, overlap suppression keeps
exactly the higher-confidence one when they share a label and overlap
above the threshold, and keeps both whenever their labels differ —
whatever the input order. -/
theorem overlap_suppression
    (t : ℚ) (d1 d2 : Detection)
    (hconf : d2.confidence < d1.confidence) :
    (d1.class_name = d2.class_name → t < calcIou d1.bbox d2.bbox →
      filterOverlapping t [d1, d2] = [d1] ∧ filterOverlapping t [d2, d1] = [d1]) ∧
    (d1.class_name ≠ d2.class_name →
      filterOverlapping t [d1, d2] = [d1, d2] ∧ filterOverlapping t [d2, d1] = [d1, d2]) := by
  have hsort1 : sortDesc [d1, d2] = [d1, d2] := by
    simp [sortDesc, insertDesc, hconf.le]
  have hsort2 : sortDesc [d2, d1] = [d1, d2] := by
    simp [sortDesc, insertDesc, hconf.not_le]
  constructor
  · intro hlab hiou
    constructor
    · simp [filterOverlapping, hsort1, isDup, calcIou_comm d2.bbox d1.bbox, hiou, hlab]
    · simp [filterOverlapping, hsort2, isDup, calcIou_comm d2.bbox d1.bbox, hiou, hlab]
  · intro hlab
    constructor
    · simp [filterOverlapping, hsort1, isDup, Ne.symm hlab]
    · simp [filterOverlapping, hsort2, isDup, Ne.symm hlab]

theorem det_conf_fixture : detLo.confidence < detHi.confidence := by
  norm_num [detLo, detHi]

theorem det_confY_fixture : detLoY.confidence < detHi.confidence := by
  norm_num [detLoY, detHi]

theorem det_iou_fixture : (1 / 2 : ℚ) < calcIou detHi.bbox detLo.bbox := by
  norm_num [calcIou, boxArea, detHi, detLo]

theorem overlap_suppression_witness :
    filterOverlapping (1 / 2) [detHi, detLo] = [detHi] ∧
    filterOverlapping (1 / 2) [detHi, detLoY] = [detHi, detLoY] :=
  ⟨((overlap_suppression (1 / 2) detHi detLo det_conf_fixture).1 rfl det_iou_fixture).1,
   ((overlap_suppression (1 / 2) detHi detLoY det_confY_fixture).2 (by decide)).1⟩

theorem decrementFirst_nonneg (ps : List Product) (pid : String) (q : Nat)
    (h : ∀ p ∈ ps, 0 ≤ p.stock) : ∀ p ∈ decrementFirst ps pid q, 0 ≤ p.stock := by
  revert h
  induction ps with
  | nil => exact fun _ p hp => by simp [decrementFirst] at hp
  | cons a ps ih =>
    intro h p hp
    by_cases ha : a.id = pid
    · simp only [decrementFirst, ha, if_true] at hp
      rcases List.mem_cons.mp hp with hp | hp
      · by_cases hq : (q : ℤ) ≤ a.stock
        · rw [if_pos hq] at hp
          subst hp
          simpa using sub_nonneg.mpr hq
        · rw [if_neg hq] at hp
          subst hp
          exact h p (List.mem_cons_self p ps)
      · exact h p (List.mem_cons_of_mem a hp)
    · simp only [decrementFirst, ha, if_false] at hp
      rcases List.mem_cons.mp hp with hp | hp
      · subst hp
        exact h p (List.mem_cons_self p ps)
      · exact ih (fun x hx => h x (List.mem_cons_of_mem a hx)) p hp

theorem updateStockList_nonneg_aux (pid : String) (q : Nat) (op : StockOp) :
    ∀ (ps : List Product) (res : List Product),
      updateStockList ps pid q op = some res →
      (∀ p ∈ ps, 0 ≤ p.stock) → ∀ p ∈ res, 0 ≤ p.stock := by
  intro ps
  induction ps with
  | nil => intro res hres
           simp [updateStockList] at hres
  | cons a ps ih =>
    intro res hres h
    by_cases ha : a.id = pid
    · cases op with
      | add =>
        simp only [updateStockList, ha, if_true] at hres
        rw [Option.some.injEq] at hres
        subst hres
        intro p hp
        rcases List.mem_cons.mp hp with hp | hp
        · subst hp
          simpa using add_nonneg (h a (List.mem_cons_self a ps)) (Int.natCast_nonneg q)
        · exact h p (List.mem_cons_of_mem a hp)
      | subtract =>
        by_cases hq : (q : ℤ) ≤ a.stock
        · simp only [updateStockList, ha, if_true, hq] at hres
          rw [Option.some.injEq] at hres
          subst hres
          intro p hp
          rcases List.mem_cons.mp hp with hp | hp
          · subst hp
            simpa using sub_nonneg.mpr hq
          · exact h p (List.mem_cons_of_mem a hp)
        · simp [updateStockList, ha, hq] at hres
    · simp only [updateStockList, ha, if_false] at hres
      obtain ⟨res', h1, h2⟩ := Option.map_eq_some'.mp hres
      subst h2
      intro p hp
      rcases List.mem_cons.mp hp with hp | hp
      · subst hp
        exact h p (List.mem_cons_self p ps)
      · exact ih res' h1 (fun x hx => h x (List.mem_cons_of_mem a hx)) p hp

theorem foldl_decrement_nonneg (items : List PayItem) (ps : List Product)
    (h : ∀ p ∈ ps, 0 ≤ p.stock) :
    ∀ p ∈ items.foldl (fun acc it => decrementFirst acc it.product_id it.quantity) ps,
      0 ≤ p.stock := by
  induction items generalizing ps with
  | nil => simpa using h
  | cons it items ih =>
    intro p hp
    exact ih _ (decrementFirst_nonneg _ _ _ h) p hp

theorem updateStockList_nonneg (ps : List Product) (pid : String) (q : Nat) (op : StockOp)
    (res : List Product) (hres : updateStockList ps pid q op = some res)
    (h : ∀ p ∈ ps, 0 ≤ p.stock) : ∀ p ∈ res, 0 ≤ p.stock :=
  updateStockList_nonneg_aux pid q op ps res hres h

theorem add_to_cart_db (st : SysState) (pid : String) (qty : Nat) (sid : Option String)
    (clock : Nat) : ((add_to_cart st pid qty sid clock).2).db = st.db := by
  unfold add_to_cart
  cases h : get_product_flexible pid st.db.products with
  | none => rfl
  | some p =>
    by_cases hs : p.stock < (qty : ℤ)
    · simp [hs]
    · simp [hs]

theorem restock_nonneg (st : SysState) (pid : String) (q : Nat)
    (h : StocksNonneg st.db) : StocksNonneg ((restock st pid q).2).db := by
  unfold restock update_stock
  cases hres : updateStockList st.db.products pid q .add with
  | none => simpa using h
  | some ps =>
    intro p hp
    exact updateStockList_nonneg _ _ _ _ _ hres h p hp

theorem process_nonneg (db : Db) (pid : String) (clock : Nat)
    (h : StocksNonneg db) : StocksNonneg (process_pending_payment db pid clock).2 := by
  unfold process_pending_payment
  cases hpp : getPendingPayment db pid with
  | none => exact h
  | some pp =>
    by_cases hs : pp.status = PayStatus.pending
    · simp only [hs, ne_eq, not_true_eq_false, if_false]
      intro p hp
      exact foldl_decrement_nonneg pp.items db.products h p hp
    · simp only [ne_eq, hs, not_false_eq_true, if_true]
      exact h

theorem confirm_nonneg (st : SysState) (pid : String) (clock : Nat)
    (h : StocksNonneg st.db) : StocksNonneg ((confirm_payment st pid clock).2).db := by
  unfold confirm_payment
  cases hpp : getPendingPayment st.db pid with
  | none => exact h
  | some pp =>
    by_cases hs : pp.status = PayStatus.pending
    · simp only [hs, ne_eq, not_true_eq_false, if_false]
      cases hr : (process_pending_payment st.db pid clock).1 with
      | none => simpa [hr] using process_nonneg st.db pid clock h
      | some s => simpa [hr] using process_nonneg st.db pid clock h
    · simp only [ne_eq, hs, not_false_eq_true, if_true]
      exact h

theorem applyOp_nonneg (st : SysState) (op : Op) (h : StocksNonneg st.db) :
    StocksNonneg ((applyOp st op)).db := by
  cases op with
  | addCart pid qty sid clock =>
    rw [applyOp, add_to_cart_db]
    exact h
  | restockOp pid qty => exact restock_nonneg st pid qty h
  | confirmOp pid clock => exact confirm_nonneg st pid clock h

theorem updateStockList_sub_insufficient (ps : List Product) (pid : String) (q : Nat)
    (p : Product) (hp : getProduct ps pid = some p) (hq : p.stock < (q : ℤ)) :
    updateStockList ps pid q .subtract = none := by
  revert hp
  induction ps with
  | nil => intro hp
           simp [getProduct] at hp
  | cons a ps ih =>
    intro hp
    by_cases ha : a.id = pid
    · simp only [getProduct, ha, if_true, Option.some.injEq] at hp
      subst hp
      simp [updateStockList, ha, not_le.mpr hq]
    · simp only [getProduct, ha, if_false] at hp
      simp [updateStockList, ha, ih hp]

theorem decrementFirst_skip (ps : List Product) (pid : String) (q : Nat)
    (p : Product) (hp : getProduct ps pid = some p) (hq : p.stock < (q : ℤ)) :
    decrementFirst ps pid q = ps := by
  revert hp
  induction ps with
  | nil => intro hp
           rfl
  | cons a ps ih =>
    intro hp
    by_cases ha : a.id = pid
    · simp only [getProduct, ha, if_true, Option.some.injEq] at hp
      subst hp
      simp [decrementFirst, ha, not_le.mpr hq]
    · simp only [getProduct, ha, if_false] at hp
      simp [decrementFirst, ha, ih hp]

theorem decrementFirst_apply (ps : List Product) (pid : String) (q : Nat)
    (p : Product) (hp : getProduct ps pid = some p) (hq : (q : ℤ) ≤ p.stock) :
    getProduct (decrementFirst ps pid q) pid = some { p with stock := p.stock - q } := by
  revert hp
  induction ps with
  | nil => intro hp
           simp [getProduct] at hp
  | cons a ps ih =>
    intro hp
    by_cases ha : a.id = pid
    · simp only [getProduct, ha, if_true, Option.some.injEq] at hp
      subst hp
      simp [decrementFirst, ha, hq, getProduct]
    · simp only [getProduct, ha, if_false] at hp
      simp [decrementFirst, ha, getProduct, ih hp]

/-- C3: stock never goes negative under any sequence of add-to-cart,
restock and payment-confirmation operations; an explicit subtract that
would overdraw fails and leaves the store untouched; a confirmation
whose stock is insufficient skips the decrement for that line yet still
completes the payment. -/
theorem stock_never_negative
    (ops : List Op) (st : SysState) (db : Db) (pid : String) (q : Nat)
    (p : Product) (pp : Payment) (clock : Nat) :
    (StocksNonneg st.db → StocksNonneg ((ops.foldl applyOp st).db)) ∧
    (getProduct db.products pid = some p → p.stock < (q : ℤ) →
      update_stock db pid q .subtract = (false, db)) ∧
    (getProduct db.products pid = some p → p.stock < (q : ℤ) →
      decrementFirst db.products pid q = db.products) ∧
    (getPendingPayment db pid = some pp → pp.status = PayStatus.pending →
      ((process_pending_payment db pid clock).1).isSome = true) := by
  refine ⟨?_, ?_, ?_, ?_⟩
  · intro h
    induction ops generalizing st with
    | nil => exact h
    | cons op ops ih => exact ih _ (applyOp_nonneg st op h)
  · intro hp hq
    simp [update_stock, updateStockList_sub_insufficient db.products pid q p hp hq]
  · intro hp hq
    exact decrementFirst_skip db.products pid q p hp hq
  · intro hpp hs
    simp [process_pending_payment, hpp, hs]

theorem stock_never_negative_witness :
    StocksNonneg
      (([Op.addCart "cola-can" 1 none 0, Op.restockOp "cola-can" 3,
          Op.confirmOp "pay1" 1].foldl applyOp wSt).db) ∧
    update_stock sampleDb "cola-can" 9 .subtract = (false, sampleDb) ∧
    decrementFirst sampleDb.products "cola-can" 9 = sampleDb.products ∧
    ((process_pending_payment wSt.db "pay1" 2).1).isSome = true :=
  ⟨(stock_never_negative [Op.addCart "cola-can" 1 none 0, Op.restockOp "cola-can" 3,
        Op.confirmOp "pay1" 1] wSt sampleDb "cola-can" 9 colaP wPay 2).1 (by decide),
   (stock_never_negative [] wSt sampleDb "cola-can" 9 colaP wPay 2).2.1
      (by decide) (by decide),
   (stock_never_negative [] wSt sampleDb "cola-can" 9 colaP wPay 2).2.2.1
      (by decide) (by decide),
   (stock_never_negative [] wSt wSt.db "pay1" 9 colaP wPay 2).2.2.2
      (by decide) (by decide)⟩

theorem addItem_line (mgr : CartMgr) (p : Product) (sid : Option String) (clock : Nat) :
    (addItem mgr p sid clock).1.product_id = p.id := rfl

theorem cartLinesOf_addItem (mgr : CartMgr) (p : Product) (sid : Option String) (clock : Nat) :
    cartLinesOf (addItem mgr p sid clock).2 sid =
      cartLinesOf mgr sid ++ [(addItem mgr p sid clock).1] := by
  unfold cartLinesOf addItem getCart
  cases h : lookupA mgr.carts (resolveSid sid) with
  | none => simp [h, lookupA_setA_self]
  | some c => simp [h, lookupA_setA_self]

theorem cartLinesOf_getSummary (mgr : CartMgr) (sid : Option String) (clock : Nat) :
    cartLinesOf (getSummary mgr sid clock).2 sid = cartLinesOf mgr sid := by
  unfold cartLinesOf getSummary getCart
  cases h : lookupA mgr.carts (resolveSid sid) with
  | none => simp [h, lookupA_setA_self]
  | some c => simp [h]

theorem addItems_length (p : Product) (sid : Option String) (clock : Nat) :
    ∀ (n : Nat) (mgr : CartMgr), (addItems p sid clock mgr n).1.length = n := by
  intro n
  induction n with
  | zero => intro mgr
            rfl
  | succ n ih => intro mgr
                 simp [addItems, ih]

theorem addItems_ids (p : Product) (sid : Option String) (clock : Nat) :
    ∀ (n : Nat) (mgr : CartMgr),
      (addItems p sid clock mgr n).1.map CartLine.product_id = List.replicate n p.id := by
  intro n
  induction n with
  | zero => intro mgr
            rfl
  | succ n ih =>
    intro mgr
    simp [addItems, ih, addItem_line, List.replicate_succ]

theorem cartLinesOf_addItems (p : Product) (sid : Option String) (clock : Nat) :
    ∀ (n : Nat) (mgr : CartMgr),
      cartLinesOf (addItems p sid clock mgr n).2 sid =
        cartLinesOf mgr sid ++ (addItems p sid clock mgr n).1 := by
  intro n
  induction n with
  | zero => intro mgr
            simp [addItems]
  | succ n ih =>
    intro mgr
    simp [addItems, ih, cartLinesOf_addItem]

/-- C4: with the product resolvable, a single add rejects with the
requested-versus-available insufficiency signal and leaves everything
untouched whenever the quantity exceeds the stock; otherwise it appends
exactly `quantity` lines for that product and returns them. -/
theorem add_to_cart_spec
    (st : SysState) (pid : String) (qty : Nat) (sid : Option String) (clock : Nat)
    (p : Product) (hres : get_product_flexible pid st.db.products = some p) :
    (p.stock < (qty : ℤ) →
      add_to_cart st pid qty sid clock = (.insufficientStock p.stock qty, st)) ∧
    ((qty : ℤ) ≤ p.stock →
      ∃ added summ,
        (add_to_cart st pid qty sid clock).1 = .ok added summ ∧
        added.length = qty ∧
        added.map CartLine.product_id = List.replicate qty p.id ∧
        cartLinesOf ((add_to_cart st pid qty sid clock).2).mgr sid =
          cartLinesOf st.mgr sid ++ added) := by
  constructor
  · intro h
    simp [add_to_cart, hres, h]
  · intro h
    refine ⟨(addItems p sid clock st.mgr qty).1,
      (getSummary (addItems p sid clock st.mgr qty).2 sid clock).1, ?_, ?_, ?_, ?_⟩
    · simp [add_to_cart, hres, not_lt.mpr h]
    · exact addItems_length p sid clock qty st.mgr
    · exact addItems_ids p sid clock qty st.mgr
    · simp [add_to_cart, hres, not_lt.mpr h, cartLinesOf_getSummary, cartLinesOf_addItems]

theorem add_to_cart_spec_witness :
    add_to_cart sampleSt "cola-can" 9 none 1 =
      (AddResult.insufficientStock colaP.stock 9, sampleSt) ∧
    (∃ added summ,
      (add_to_cart sampleSt "cola-can" 2 none 1).1 = AddResult.ok added summ ∧
      added.length = 2 ∧
      added.map CartLine.product_id = List.replicate 2 colaP.id ∧
      cartLinesOf ((add_to_cart sampleSt "cola-can" 2 none 1).2).mgr none =
        cartLinesOf sampleSt.mgr none ++ added) :=
  ⟨(add_to_cart_spec sampleSt "cola-can" 9 none 1 colaP (by decide)).1 (by decide),
   (add_to_cart_spec sampleSt "cola-can" 2 none 1 colaP (by decide)).2 (by decide)⟩

theorem batch_foldl_spec (db : Db) (sid : Option String) (clock : Nat) :
    ∀ (items : List (String × Nat)) (acc : List CartLine × List String × CartMgr),
      ∃ newLines : List CartLine,
        (items.foldl (batchStep db sid clock) acc).1 = acc.1 ++ newLines ∧
        newLines.length = ((items.filter (itemOk db)).map (fun it => it.2)).sum ∧
        (items.foldl (batchStep db sid clock) acc).2.1.length =
          acc.2.1.length + (items.filter (fun it => !(itemOk db it))).length ∧
        cartLinesOf (items.foldl (batchStep db sid clock) acc).2.2 sid =
          cartLinesOf acc.2.2 sid ++ newLines := by
  intro items
  induction items with
  | nil =>
    intro acc
    exact ⟨[], by simp, by simp, by simp, by simp⟩
  | cons it items ih =>
    intro acc
    cases hres : get_product_flexible it.1 db.products with
    | none =>
      have hok : itemOk db it = false := by simp [itemOk, hres]
      obtain ⟨nl, h1, h2, h3, h4⟩ := ih (batchStep db sid clock acc it)
      refine ⟨nl, ?_, ?_, ?_, ?_⟩
      · rw [List.foldl_cons, h1]
        simp [batchStep, hres]
      · rw [h2]
        simp [hok]
      · rw [List.foldl_cons, h3]
        simp [batchStep, hres, hok]
        omega
      · rw [List.foldl_cons, h4]
        simp [batchStep, hres]
    | some p =>
      by_cases hs : p.stock < (it.2 : ℤ)
      · have hok : itemOk db it = false := by simp [itemOk, hres, hs]
        obtain ⟨nl, h1, h2, h3, h4⟩ := ih (batchStep db sid clock acc it)
        refine ⟨nl, ?_, ?_, ?_, ?_⟩
        · rw [List.foldl_cons, h1]
          simp [batchStep, hres, hs]
        · rw [h2]
          simp [hok]
        · rw [List.foldl_cons, h3]
          simp [batchStep, hres, hs, hok]
          omega
        · rw [List.foldl_cons, h4]
          simp [batchStep, hres, hs]
      · have hok : itemOk db it = true := by simp [itemOk, hres, hs]
        obtain ⟨nl, h1, h2, h3, h4⟩ := ih (batchStep db sid clock acc it)
        refine ⟨(addItems p sid clock acc.2.2 it.2).1 ++ nl, ?_, ?_, ?_, ?_⟩
        · rw [List.foldl_cons, h1]
          simp [batchStep, hres, hs]
        · simp [hok, addItems_length, h2]
        · rw [List.foldl_cons, h3]
          simp [batchStep, hres, hs, hok]
        · rw [List.foldl_cons, h4]
          simp [batchStep, hres, hs, cartLinesOf_addItems]

/-- C5: batch add is best-effort per item — each failing item yields one
error string without blocking the rest, `items_added` counts the lines
actually appended, success holds exactly when at least one line was
added; in particular three items with the middle one out of stock give
two added lines, one error and success. -/
theorem add_batch_spec
    (st : SysState) (items : List (String × Nat)) (sid : Option String) (clock : Nat) :
    ∃ resp st',
      add_batch st items sid clock = (resp, st') ∧
      resp.errors.length = (items.filter (fun it => !(itemOk st.db it))).length ∧
      resp.items_added = ((items.filter (itemOk st.db)).map (fun it => it.2)).sum ∧
      resp.success = decide (0 < resp.items_added) ∧
      (cartLinesOf st'.mgr sid).length =
        (cartLinesOf st.mgr sid).length + resp.items_added ∧
      ((add_batch batchSt [("prod-a", 1), ("prod-b", 1), ("prod-c", 1)] none 0).1.items_added = 2 ∧
       (add_batch batchSt [("prod-a", 1), ("prod-b", 1), ("prod-c", 1)] none 0).1.errors.length = 1 ∧
       (add_batch batchSt [("prod-a", 1), ("prod-b", 1), ("prod-c", 1)] none 0).1.success = true) := by
  obtain ⟨nl, h1, h2, h3, h4⟩ := batch_foldl_spec st.db sid clock items ([], [], st.mgr)
  refine ⟨(add_batch st items sid clock).1, (add_batch st items sid clock).2,
    rfl, ?_, ?_, rfl, ?_, by decide, by decide, by decide⟩
  · show (items.foldl (batchStep st.db sid clock) ([], [], st.mgr)).2.1.length = _
    simpa using h3
  · show (items.foldl (batchStep st.db sid clock) ([], [], st.mgr)).1.length = _
    rw [h1]
    simpa using h2
  · show (cartLinesOf (getSummary
        (items.foldl (batchStep st.db sid clock) ([], [], st.mgr)).2.2 sid clock).2 sid).length = _
    rw [cartLinesOf_getSummary, h4]
    show _ = _ + (items.foldl (batchStep st.db sid clock) ([], [], st.mgr)).1.length
    rw [h1]
    simp

theorem checkout_nonempty (st : SysState) (sid : Option String) (payid : String)
    (c1 : Nat) (hne : ¬(getSummary st.mgr sid c1).1.total_items = 0) :
    checkout_cart st sid payid c1 =
      (CheckoutResult.payment (checkoutPayment st sid payid c1),
        ⟨clearCart (getSummary st.mgr sid c1).2 sid c1,
          addPendingPayment st.db payid (checkoutPayment st sid payid c1)⟩) := by
  unfold checkout_cart checkoutPayment
  rw [if_neg hne]

theorem confirm_pending (st : SysState) (payid : String) (c2 : Nat) (pay : Payment)
    (hpp : getPendingPayment st.db payid = some pay)
    (hst : pay.status = PayStatus.pending) :
    confirm_payment st payid c2 =
      (ConfirmResult.sale ⟨c2, payid, c2, pay.items, pay.subtotal, pay.tax, pay.total⟩,
        { st with db := { st.db with
            products := pay.items.foldl
              (fun acc it => decrementFirst acc it.product_id it.quantity) st.db.products
            pending_payments := setA st.db.pending_payments payid
              { pay with status := .completed }
            sales := st.db.sales ++
              [⟨c2, payid, c2, pay.items, pay.subtotal, pay.tax, pay.total⟩] } }) := by
  unfold confirm_payment process_pending_payment
  rw [hpp]
  simp [hst]

/-- C1: checking out a cart whose summary is a single product at unit
price P with quantity q yields a pending payment with subtotal P*q,
tax = subtotal * tax_rate (default 7/100) and total = subtotal + tax;
confirming it decrements that product's stock by q and appends exactly
one sale carrying the same subtotal, tax and total. -/
theorem checkout_confirm_roundtrip
    (st : SysState) (sid : Option String) (payid : String) (c1 c2 : Nat)
    (pid name : String) (P : ℚ) (q : Nat) (p : Product)
    (hsum : (getSummary st.mgr sid c1).1.items = [⟨pid, name, P, q⟩])
    (hprod : getProduct st.db.products pid = some p)
    (hstock : (q : ℤ) ≤ p.stock) :
    ∃ pay st1 s st2,
      checkout_cart st sid payid c1 = (CheckoutResult.payment pay, st1) ∧
      pay.subtotal = P * (q : ℚ) ∧
      pay.tax = pay.subtotal * (st.db.taxRate.getD (7 / 100)) ∧
      pay.total = pay.subtotal + pay.tax ∧
      pay.status = PayStatus.pending ∧
      confirm_payment st1 payid c2 = (ConfirmResult.sale s, st2) ∧
      s.subtotal = pay.subtotal ∧ s.tax = pay.tax ∧ s.total = pay.total ∧
      st2.db.sales = st.db.sales ++ [s] ∧
      getProduct st2.db.products pid = some { p with stock := p.stock - (q : ℤ) } := by
  have hsum' : summaryItems (getCart st.mgr sid c1).1.items = [⟨pid, name, P, q⟩] := hsum
  have hne : ¬(getSummary st.mgr sid c1).1.total_items = 0 := by
    show ¬(getCart st.mgr sid c1).1.items.length = 0
    intro h0
    rw [List.length_eq_zero] at h0
    rw [h0] at hsum'
    simp [summaryItems] at hsum'
  have hitems : (checkoutPayment st sid payid c1).items =
      [⟨pid, name, q, P, P * (q : ℚ)⟩] := by
    simp [checkoutPayment, hsum]
  have hsubtotal : (checkoutPayment st sid payid c1).subtotal = P * (q : ℚ) := by
    simp [checkoutPayment, hsum]
  have hstat : (checkoutPayment st sid payid c1).status = PayStatus.pending := rfl
  set pay := checkoutPayment st sid payid c1 with hpayDef
  set st1 : SysState := ⟨clearCart (getSummary st.mgr sid c1).2 sid c1,
    addPendingPayment st.db payid pay⟩ with hst1Def
  set s : Sale := ⟨c2, payid, c2, pay.items, pay.subtotal, pay.tax, pay.total⟩ with hsDef
  have hpp1 : getPendingPayment st1.db payid = some pay := by
    simp [hst1Def, addPendingPayment, getPendingPayment, lookupA_setA_self]
  have hconf := confirm_pending st1 payid c2 pay hpp1 hstat
  refine ⟨pay, st1, s, _, ?_, hsubtotal, ?_, ?_, hstat, hconf, rfl, rfl, rfl, ?_, ?_⟩
  · exact checkout_nonempty st sid payid c1 hne
  · rw [hpayDef]
    simp [checkoutPayment]
  · rw [hpayDef]
    simp [checkoutPayment]
  · simp [hst1Def, addPendingPayment, hsDef]
  · show getProduct (pay.items.foldl
        (fun acc it => decrementFirst acc it.product_id it.quantity) st1.db.products) pid = _
    rw [hitems]
    show getProduct (decrementFirst st.db.products pid q) pid = _
    exact decrementFirst_apply st.db.products pid q p hprod hstock

theorem checkout_confirm_roundtrip_witness :
    ∃ pay st1 s st2,
      checkout_cart sampleSt none "pay1" 1 = (CheckoutResult.payment pay, st1) ∧
      pay.subtotal = 14 * ((2 : Nat) : ℚ) ∧
      pay.tax = pay.subtotal * (sampleSt.db.taxRate.getD (7 / 100)) ∧
      pay.total = pay.subtotal + pay.tax ∧
      pay.status = PayStatus.pending ∧
      confirm_payment st1 "pay1" 2 = (ConfirmResult.sale s, st2) ∧
      s.subtotal = pay.subtotal ∧ s.tax = pay.tax ∧ s.total = pay.total ∧
      st2.db.sales = sampleSt.db.sales ++ [s] ∧
      getProduct st2.db.products "cola-can" =
        some { colaP with stock := colaP.stock - ((2 : Nat) : ℤ) } :=
  checkout_confirm_roundtrip sampleSt none "pay1" 1 2 "cola-can" "Cola" 14 2 colaP
    (by decide) (by decide) (by decide)

theorem qtyOf_summaryAdd (acc : List SummaryItem) (l : CartLine) (pid : String) :
    qtyOf (summaryAdd acc l) pid =
      qtyOf acc pid + (if l.product_id = pid then 1 else 0) := by
  induction acc with
  | nil =>
    by_cases h : l.product_id = pid <;> simp [summaryAdd, qtyOf, h]
  | cons e es ih =>
    by_cases he : e.product_id = l.product_id
    · by_cases hp : e.product_id = pid
      · simp [summaryAdd, qtyOf, he, hp, he.symm.trans hp]
      · have : ¬l.product_id = pid := fun h => hp (he.trans h)
        simp [summaryAdd, qtyOf, he, hp, this]
    · by_cases hp : e.product_id = pid
      · have h1 : ¬l.product_id = pid := fun h => he (hp.trans h.symm)
        have h2 : ¬pid = l.product_id := fun h => he (hp.trans h)
        simp [summaryAdd, qtyOf, he, hp, h1, h2]
      · simp [summaryAdd, qtyOf, he, hp, ih]

theorem qtyOf_foldl (lines : List CartLine) :
    ∀ (acc : List SummaryItem) (pid : String),
      qtyOf (lines.foldl summaryAdd acc) pid =
        qtyOf acc pid + lines.countP (fun l => decide (l.product_id = pid)) := by
  induction lines with
  | nil => intro acc pid
           simp
  | cons l lines ih =>
    intro acc pid
    rw [List.foldl_cons, ih, qtyOf_summaryAdd, List.countP_cons]
    by_cases h : l.product_id = pid
    · simp [h]
      omega
    · simp [h]

theorem qtyOf_mem (acc : List SummaryItem) (e : SummaryItem)
    (hnd : (acc.map SummaryItem.product_id).Nodup) (he : e ∈ acc) :
    qtyOf acc e.product_id = e.quantity := by
  revert hnd he
  induction acc with
  | nil => intro _ he
           simp at he
  | cons a as ih =>
    intro hnd he
    rcases List.mem_cons.mp he with rfl | he
    · simp [qtyOf]
    · have hns := List.nodup_cons.mp hnd
      have hne : ¬a.product_id = e.product_id := by
        intro hcontra
        exact hns.1 (hcontra ▸ List.mem_map_of_mem SummaryItem.product_id he)
      simp [qtyOf, hne, ih hns.2 he]

theorem summaryAdd_keys (acc : List SummaryItem) (l : CartLine) :
    (summaryAdd acc l).map SummaryItem.product_id =
      if l.product_id ∈ acc.map SummaryItem.product_id then
        acc.map SummaryItem.product_id
      else acc.map SummaryItem.product_id ++ [l.product_id] := by
  induction acc with
  | nil => simp [summaryAdd]
  | cons e es ih =>
    by_cases he : e.product_id = l.product_id
    · simp [summaryAdd, he]
    · by_cases hm : l.product_id ∈ es.map SummaryItem.product_id
      · simp [summaryAdd, he, ih, hm, Ne.symm he]
      · simp [summaryAdd, he, ih, hm, Ne.symm he]

theorem summaryAdd_nodup (acc : List SummaryItem) (l : CartLine)
    (h : (acc.map SummaryItem.product_id).Nodup) :
    ((summaryAdd acc l).map SummaryItem.product_id).Nodup := by
  rw [summaryAdd_keys]
  by_cases hm : l.product_id ∈ acc.map SummaryItem.product_id
  · simpa [hm] using h
  · rw [if_neg hm]
    exact h.append (List.nodup_singleton _)
      (fun a ha hb => hm ((List.mem_singleton.mp hb) ▸ ha))

theorem summaryAdd_mem (acc : List SummaryItem) (l : CartLine) (x : String) :
    x ∈ (summaryAdd acc l).map SummaryItem.product_id ↔
      x ∈ acc.map SummaryItem.product_id ∨ x = l.product_id := by
  rw [summaryAdd_keys]
  by_cases hm : l.product_id ∈ acc.map SummaryItem.product_id
  · rw [if_pos hm]
    constructor
    · exact Or.inl
    · rintro (h | rfl)
      · exact h
      · exact hm
  · rw [if_neg hm]
    simp

theorem summaryItems_foldl_nodup (lines : List CartLine) :
    ∀ acc : List SummaryItem, (acc.map SummaryItem.product_id).Nodup →
      ((lines.foldl summaryAdd acc).map SummaryItem.product_id).Nodup := by
  induction lines with
  | nil => exact fun acc h => h
  | cons l lines ih =>
    intro acc h
    exact ih _ (summaryAdd_nodup acc l h)

theorem summaryItems_foldl_mem (lines : List CartLine) :
    ∀ (acc : List SummaryItem) (x : String),
      x ∈ (lines.foldl summaryAdd acc).map SummaryItem.product_id ↔
        x ∈ acc.map SummaryItem.product_id ∨ x ∈ lines.map CartLine.product_id := by
  induction lines with
  | nil => intro acc x
           simp
  | cons l lines ih =>
    intro acc x
    rw [List.foldl_cons, ih, summaryAdd_mem]
    simp [or_assoc, or_comm (a := x = l.product_id)]

theorem summaryItems_nodup (lines : List CartLine) :
    ((summaryItems lines).map SummaryItem.product_id).Nodup :=
  summaryItems_foldl_nodup lines [] (by simp)

theorem summaryItems_length_dedup (lines : List CartLine) :
    (summaryItems lines).length = (lines.map CartLine.product_id).dedup.length := by
  have h1 := summaryItems_nodup lines
  have h2 : ∀ x, x ∈ (summaryItems lines).map SummaryItem.product_id ↔
      x ∈ (lines.map CartLine.product_id).dedup := by
    intro x
    rw [List.mem_dedup]
    simpa [summaryItems] using summaryItems_foldl_mem lines [] x
  have hperm := (List.perm_ext_iff_of_nodup h1 (List.nodup_dedup _)).mpr h2
  calc (summaryItems lines).length
      = ((summaryItems lines).map SummaryItem.product_id).length :=
        (List.length_map _ _).symm
    _ = _ := hperm.length_eq

theorem getCart_stable (mgr : CartMgr) (sid : Option String) (c c' : Nat) :
    getCart ((getCart mgr sid c).2) sid c' =
      ((getCart mgr sid c).1, (getCart mgr sid c).2) := by
  unfold getCart
  cases h : lookupA mgr.carts (resolveSid sid) with
  | some cart => simp [h]
  | none => simp [h, lookupA_setA_self]

/-- C9: the cart summary is a pure derived view — reading it twice
without a mutation in between returns the identical summary and state;
its rows group lines by product id with quantity equal to that
product's line count, total_items is the number of lines, and
unique_items the number of distinct product ids. -/
theorem summary_pure_view
    (mgr : CartMgr) (sid : Option String) (c1 c2 : Nat)
    (lines : List CartLine) (e : SummaryItem) :
    (getSummary ((getSummary mgr sid c1).2) sid c2 = getSummary mgr sid c1) ∧
    ((getSummary mgr sid c1).1.items = summaryItems (getCart mgr sid c1).1.items ∧
     (getSummary mgr sid c1).1.total_items = (getCart mgr sid c1).1.items.length ∧
     (getSummary mgr sid c1).1.unique_items = ((getSummary mgr sid c1).1.items).length) ∧
    (e ∈ summaryItems lines →
      e.quantity = lines.countP (fun l => decide (l.product_id = e.product_id))) ∧
    (summaryItems lines).length = (lines.map CartLine.product_id).dedup.length := by
  refine ⟨?_, ⟨rfl, rfl, rfl⟩, ?_, summaryItems_length_dedup lines⟩
  · simp [getSummary, getCart_stable]
  · intro he
    have hq := qtyOf_mem (summaryItems lines) e (summaryItems_nodup lines) he
    rw [← hq]
    rw [show qtyOf (summaryItems lines) e.product_id =
        qtyOf ([] : List SummaryItem) e.product_id +
          lines.countP (fun l => decide (l.product_id = e.product_id)) from
      qtyOf_foldl lines [] e.product_id]
    simp [qtyOf]

theorem summary_pure_view_witness :
    (getSummary ((getSummary sampleMgr none 1).2) none 2 = getSummary sampleMgr none 1) ∧
    ((⟨"cola-can", "Cola", 14, 2⟩ : SummaryItem).quantity =
      [colaLine1, colaLine2].countP
        (fun l => decide (l.product_id =
          (⟨"cola-can", "Cola", 14, 2⟩ : SummaryItem).product_id))) ∧
    (summaryItems [colaLine1, colaLine2]).length =
      ([colaLine1, colaLine2].map CartLine.product_id).dedup.length :=
  ⟨(summary_pure_view sampleMgr none 1 2 [colaLine1, colaLine2]
      ⟨"cola-can", "Cola", 14, 2⟩).1,
   (summary_pure_view sampleMgr none 1 2 [colaLine1, colaLine2]
      ⟨"cola-can", "Cola", 14, 2⟩).2.2.1 (by decide),
   (summary_pure_view sampleMgr none 1 2 [colaLine1, colaLine2]
      ⟨"cola-can", "Cola", 14, 2⟩).2.2.2⟩

end Checkout
